import Mathlib

set_option maxRecDepth 10000

/-!
Verification of the `mcp-neo4j-cypher-ts` request pipeline.

This file gives a shallow embedding, in Lean 4, of the parts of the
TypeScript source that the specification's claims are about:

* `src/security/query-validator.ts` — `validateQuery`, `removeComments`,
  `detectQueryType`, `containsWriteOperations`, `sanitizeParameters`;
* `src/neo4j/queries.ts` — `isWriteQuery`, `validateCypherSyntax`;
* `src/utils/sanitize.ts` — `isEmbeddingArray`, `isEmbeddingKey`,
  `sanitizeValue`, `sanitize`;
* `src/utils/tokens.ts` — `estimateTokens`, `truncateToTokens`;
* `src/security/index.ts` — `checkRateLimit` over an explicit key-value
  store state;
* `src/auth/crypto.ts` — `encrypt` / `decrypt` with the repository's
  base64 plumbing implemented concretely and the Web-platform
  AES-GCM / SHA-256 primitives abstracted by their documented contract;
* `src/mcp/protocol.ts`, `src/mcp/handlers.ts`, `src/index.ts` — the
  JSON-RPC parsing, routing and response-assembly pipeline.

Strings from the source are modelled as `List Char`; JavaScript's dynamic
values as the inductive `JsValue` (with an explicit `undef` constructor,
since the sanitizer uses `undefined` as its removal marker).  Machine
numbers appearing in the embedded code are small non-negative counters and
character indices, modelled as `Nat` / `Int` (no overflow is reachable at
the modelled sizes).
-/

/-! ### JavaScript character classes

`jsWhitespace` is the set matched by the regex class `\s`, which for
JavaScript coincides with the set trimmed by `String.prototype.trim`
(WhiteSpace plus LineTerminator).  `isWordChar` is the regex `\w` class
used by the word-boundary assertion `\b` (ASCII only in JavaScript's
default mode). -/

def jsWhitespace (c : Char) : Bool :=
  c == ' ' || c == '\t' || c == '\n' || c == '\r' ||
  c == Char.ofNat 11 || c == Char.ofNat 12 ||
  c == Char.ofNat 0xa0 || c == Char.ofNat 0x1680 ||
  (0x2000 ≤ c.toNat && c.toNat ≤ 0x200a) ||
  c == Char.ofNat 0x2028 || c == Char.ofNat 0x2029 ||
  c == Char.ofNat 0x202f || c == Char.ofNat 0x205f ||
  c == Char.ofNat 0x3000 || c == Char.ofNat 0xfeff

/-- JavaScript regex line terminators (`.` does not match these; `$` with
the `m` flag matches before them). -/
def jsLineTerm (c : Char) : Bool :=
  c == '\n' || c == '\r' || c == Char.ofNat 0x2028 || c == Char.ofNat 0x2029

def isWordChar (c : Char) : Bool :=
  (97 ≤ c.toNat && c.toNat ≤ 122) || (65 ≤ c.toNat && c.toNat ≤ 90) ||
  (48 ≤ c.toNat && c.toNat ≤ 57) || c.toNat == 95

def isAsciiDigit (c : Char) : Bool := 48 ≤ c.toNat && c.toNat ≤ 57

/-- ASCII case folding; `String.prototype.toLowerCase` restricted to the
ASCII letters, which is all the embedded patterns ever compare. -/
def lowerAscii (c : Char) : Char :=
  if 65 ≤ c.toNat && c.toNat ≤ 90 then Char.ofNat (c.toNat + 32) else c

def lowerAsciiList (s : List Char) : List Char := s.map lowerAscii

/-- `String.prototype.trim`. -/
def jsTrim (s : List Char) : List Char :=
  ((s.dropWhile jsWhitespace).reverse.dropWhile jsWhitespace).reverse

/-! ### Comment stripping (`removeComments`, query-validator.ts 172-180)

The source applies `replace(/\/\/.*$/gm, '')` (drop from the first `//` of
each line to the line end) and then `replace(/\/\*[\s\S]*?\*\//g, '')`
(drop each `/*` together with the lazily-matched text up to the first
following `*/`; a `/*` with no later `*/` matches nothing and is kept). -/

def stripLineComments : Bool → List Char → List Char
  | _, [] => []
  | true, c :: rest =>
    if jsLineTerm c then c :: stripLineComments false rest
    else stripLineComments true rest
  | false, '/' :: '/' :: rest => stripLineComments true rest
  | false, c :: rest => c :: stripLineComments false rest

/-- Does `*/` occur in the list?  (Decides whether a `/*` opener has a
matching closer, i.e. whether the lazy block-comment regex can match.) -/
def hasBlockClose : List Char → Bool
  | '*' :: '/' :: _ => true
  | _ :: rest => hasBlockClose rest
  | [] => false

def stripBlockComments : Bool → List Char → List Char
  | _, [] => []
  | true, '*' :: '/' :: rest => stripBlockComments false rest
  | true, _ :: rest => stripBlockComments true rest
  | false, '/' :: '*' :: rest =>
    if hasBlockClose rest then stripBlockComments true rest
    else '/' :: '*' :: stripBlockComments false rest
  | false, c :: rest => c :: stripBlockComments false rest

/-- `removeComments` (query-validator.ts): line comments first, then block
comments. -/
def removeComments (query : List Char) : List Char :=
  stripBlockComments false (stripLineComments false query)

/-! ### A matcher for the source's regular expressions

Every pattern in the embedded source is built from literals, single-char
classes, `\s+`, single-char-class `*`, alternation, `\b` and one negative
lookahead, so the pattern language below covers them exactly.  Matching is
a CPS backtracking search returning whether a match exists, threading the
previous character for `\b`.  Case-insensitive (`/i`) patterns are written
in lowercase and run against the ASCII-lowercased subject, which is
equivalent for these ASCII-literal patterns. -/

inductive Rx where
  | eps : Rx
  | ch : Char → Rx
  | cls : (Char → Bool) → Rx
  | seq : Rx → Rx → Rx
  | alt : Rx → Rx → Rx
  | starCls : (Char → Bool) → Rx
  | wordB : Rx
  | notAhead : Rx → Rx

def isWordOpt : Option Char → Bool
  | some c => isWordChar c
  | none => false

/-- Greedy-with-backtracking Kleene star over a character class; since only
match existence is reported, it is the disjunction over all split points. -/
def matchStarCls (f : Char → Bool) (p : Option Char) (s : List Char)
    (k : Option Char → List Char → Bool) : Bool :=
  k p s ||
    match s with
    | [] => false
    | x :: rest => f x && matchStarCls f (some x) rest k

def matchRx : Rx → Option Char → List Char → (Option Char → List Char → Bool) → Bool
  | .eps, p, s, k => k p s
  | .ch c, _, s, k =>
    match s with
    | [] => false
    | x :: rest => x == c && k (some x) rest
  | .cls f, _, s, k =>
    match s with
    | [] => false
    | x :: rest => f x && k (some x) rest
  | .seq a b, p, s, k => matchRx a p s fun p' s' => matchRx b p' s' k
  | .alt a b, p, s, k => matchRx a p s k || matchRx b p s k
  | .starCls f, p, s, k => matchStarCls f p s k
  | .wordB, p, s, k => (isWordOpt p != isWordOpt s.head?) && k p s
  | .notAhead a, p, s, k => !(matchRx a p s fun _ _ => true) && k p s

/-- Try to match at the current position, else advance one character. -/
def rxSearchAux (r : Rx) : Option Char → List Char → Bool
  | p, s =>
    (matchRx r p s fun _ _ => true) ||
      match s with
      | [] => false
      | x :: rest => rxSearchAux r (some x) rest

/-- `pattern.test(s)` for a case-insensitive pattern written in lowercase. -/
def rxTestI (r : Rx) (s : List Char) : Bool :=
  rxSearchAux r none (lowerAsciiList s)

def rxSeq (l : List Rx) : Rx := l.foldr Rx.seq Rx.eps

def rxLit (s : String) : Rx := rxSeq (s.toList.map Rx.ch)

def rxAlts (l : List Rx) : Rx := l.foldr Rx.alt (Rx.cls fun _ => false)

/-- `\s+`. -/
def rxWsPlus : Rx := Rx.seq (Rx.cls jsWhitespace) (Rx.starCls jsWhitespace)

def rxOpt (r : Rx) : Rx := Rx.alt r Rx.eps

/-! ### Query validator (`src/security/query-validator.ts`) -/

inductive QueryType where
  | read | write | admin | unknown
deriving DecidableEq

structure QueryValidationResult where
  valid : Bool
  error : Option String
  warnings : List String
  queryType : QueryType

/-- The `DANGEROUS_OPERATIONS` deny-list (query-validator.ts 27-54), in
source order.  Patterns carry the `/i` flag; they are written lowercase
here and tested via `rxTestI`. -/
def rxCreateDatabase : Rx := rxSeq [.wordB, rxLit "create", rxWsPlus, rxLit "database", .wordB]

def rxDropDatabase : Rx := rxSeq [.wordB, rxLit "drop", rxWsPlus, rxLit "database", .wordB]

def rxStopDatabase : Rx := rxSeq [.wordB, rxLit "stop", rxWsPlus, rxLit "database", .wordB]

def rxStartDatabase : Rx := rxSeq [.wordB, rxLit "start", rxWsPlus, rxLit "database", .wordB]

def rxCreateUser : Rx := rxSeq [.wordB, rxLit "create", rxWsPlus, rxLit "user", .wordB]

def rxDropUser : Rx := rxSeq [.wordB, rxLit "drop", rxWsPlus, rxLit "user", .wordB]

def rxAlterUser : Rx := rxSeq [.wordB, rxLit "alter", rxWsPlus, rxLit "user", .wordB]

def rxCreateRole : Rx := rxSeq [.wordB, rxLit "create", rxWsPlus, rxLit "role", .wordB]

def rxDropRole : Rx := rxSeq [.wordB, rxLit "drop", rxWsPlus, rxLit "role", .wordB]

def rxGrant : Rx := rxSeq [.wordB, rxLit "grant", .wordB]

def rxRevoke : Rx := rxSeq [.wordB, rxLit "revoke", .wordB]

def rxDeny : Rx := rxSeq [.wordB, rxLit "deny", .wordB]

def rxDetachDelete : Rx := rxSeq [.wordB, rxLit "detach", rxWsPlus, rxLit "delete", .wordB]

def rxCallBrace : Rx := rxSeq [.wordB, rxLit "call", rxWsPlus, .ch (Char.ofNat 123)]

def rxCallDbms : Rx := rxSeq [.wordB, rxLit "call", rxWsPlus, rxLit "dbms", .ch '.']

/-- `/\bCALL\s+db\.(?!labels|relationshipTypes|propertyKeys|schema)/i`. -/
def rxCallDb : Rx :=
  rxSeq [.wordB, rxLit "call", rxWsPlus, rxLit "db", .ch '.',
    .notAhead (rxAlts [rxLit "labels", rxLit "relationshiptypes", rxLit "propertykeys", rxLit "schema"])]

/-- `/\bLOAD\s+CSV\s+FROM\s+['"]https?:/i`. -/
def rxLoadCsvRemote : Rx :=
  rxSeq [.wordB, rxLit "load", rxWsPlus, rxLit "csv", rxWsPlus, rxLit "from", rxWsPlus,
    .cls (fun c => c == Char.ofNat 39 || c == Char.ofNat 34),
    rxLit "http", rxOpt (.ch 's'), .ch ':']

def DANGEROUS_OPERATIONS : List (Rx × String) :=
  [(rxCreateDatabase, "CREATE DATABASE is not allowed"),
   (rxDropDatabase, "DROP DATABASE is not allowed"),
   (rxStopDatabase, "STOP DATABASE is not allowed"),
   (rxStartDatabase, "START DATABASE is not allowed"),
   (rxCreateUser, "CREATE USER is not allowed"),
   (rxDropUser, "DROP USER is not allowed"),
   (rxAlterUser, "ALTER USER is not allowed"),
   (rxCreateRole, "CREATE ROLE is not allowed"),
   (rxDropRole, "DROP ROLE is not allowed"),
   (rxGrant, "GRANT is not allowed"),
   (rxRevoke, "REVOKE is not allowed"),
   (rxDeny, "DENY is not allowed"),
   (rxDetachDelete, "DETACH DELETE is potentially dangerous - use with caution"),
   (rxCallBrace, "Subquery CALL blocks may be restricted"),
   (rxCallDbms, "System DBMS procedures are not allowed"),
   (rxCallDb, "Most db.* procedures are not allowed"),
   (rxLoadCsvRemote, "LOAD CSV from remote URLs is not allowed")]

/-- `WRITE_OPERATIONS` (query-validator.ts 59-66). -/
def WRITE_OPERATIONS : List Rx :=
  [rxSeq [.wordB, rxLit "create", .wordB],
   rxSeq [.wordB, rxLit "merge", .wordB],
   rxSeq [.wordB, rxLit "delete", .wordB],
   rxSeq [.wordB, rxLit "set", .wordB],
   rxSeq [.wordB, rxLit "remove", .wordB],
   rxSeq [.wordB, rxLit "foreach", .wordB]]

/-- `ADMIN_OPERATIONS` (query-validator.ts 71-77). -/
def ADMIN_OPERATIONS : List Rx :=
  [rxSeq [.wordB, rxLit "create", rxWsPlus,
     rxAlts [rxLit "index", rxLit "constraint", rxLit "database", rxLit "user", rxLit "role"], .wordB],
   rxSeq [.wordB, rxLit "drop", rxWsPlus,
     rxAlts [rxLit "index", rxLit "constraint", rxLit "database", rxLit "user", rxLit "role"], .wordB],
   rxSeq [.wordB, rxLit "alter", .wordB],
   rxSeq [.wordB, rxLit "grant", .wordB],
   rxSeq [.wordB, rxLit "revoke", .wordB]]

def rxReadIndicator : Rx :=
  rxSeq [.wordB, rxAlts [rxLit "match", rxLit "return", rxLit "with", rxLit "unwind", rxLit "call"], .wordB]

/-- `detectQueryType` (query-validator.ts 185-206). -/
def detectQueryType (query : List Char) : QueryType :=
  if ADMIN_OPERATIONS.any (fun r => rxTestI r query) then .admin
  else if WRITE_OPERATIONS.any (fun r => rxTestI r query) then .write
  else if rxTestI rxReadIndicator query then .read
  else .unknown

/-- First warning pattern,
`/MATCH\s+\([^)]*\)\s*(?!WHERE|RETURN|-)/i`: because the engine may
backtrack the `\s*` in front of the negative lookahead, this fires whenever
`MATCH\s+\([^)]*\)` occurs anywhere except immediately before
`WHERE`/`RETURN`/`-` with no intervening whitespace. -/
def rxUnboundedMatch : Rx :=
  rxSeq [rxLit "match", rxWsPlus, .ch '(', .starCls (fun c => !(c == ')')), .ch ')',
    .starCls jsWhitespace, .notAhead (rxAlts [rxLit "where", rxLit "return", .ch '-'])]

def natOfDigits (ds : List Char) : Nat :=
  ds.foldl (fun a c => a * 10 + (c.toNat - 48)) 0

/-- Match `\bLIMIT\s+(\d+)` at the current position (subject lowercased),
returning the captured number. -/
def limitAt (p : Option Char) (s : List Char) : Option Nat :=
  if isWordOpt p then none
  else if ("limit".toList).isPrefixOf s then
    let rest := s.drop 5
    let sp := rest.takeWhile jsWhitespace
    if sp.isEmpty then none
    else
      let ds := (rest.drop sp.length).takeWhile isAsciiDigit
      if ds.isEmpty then none else some (natOfDigits ds)
  else none

/-- The first match of `/\bLIMIT\s+(\d+)/i` in the query, as `parseInt` of
its capture group (query-validator.ts 84-87). -/
def firstLimitValue : Option Char → List Char → Option Nat
  | p, s =>
    match limitAt p s with
    | some n => some n
    | none =>
      match s with
      | [] => none
      | x :: rest => firstLimitValue (some x) rest

/-- `WARNING_PATTERNS` collection (query-validator.ts 82-88, 147-160). -/
def collectWarnings (normalizedQuery : List Char) : List String :=
  (if rxTestI rxUnboundedMatch normalizedQuery then
    ["Unbounded MATCH may return large results"]
  else []) ++
  (match firstLimitValue none (lowerAsciiList normalizedQuery) with
   | some n => if n > 10000 then ["Large LIMIT value may cause performance issues"] else []
   | none => [])

def MAX_QUERY_LENGTH : Nat := 50000

/-- `validateQuery` (query-validator.ts 101-167). -/
def validateQuery (query : List Char) : QueryValidationResult :=
  if query.length > MAX_QUERY_LENGTH then
    ⟨false,
     some ("Query too long (" ++ toString query.length ++ " chars). Maximum allowed: "
        ++ toString MAX_QUERY_LENGTH),
     [], .unknown⟩
  else if (jsTrim query).isEmpty then
    ⟨false, some "Query cannot be empty", [], .unknown⟩
  else
    let normalizedQuery := removeComments query
    match DANGEROUS_OPERATIONS.find? (fun po => rxTestI po.1 normalizedQuery) with
    | some po => ⟨false, some po.2, [], .admin⟩
    | none => ⟨true, none, collectWarnings normalizedQuery, detectQueryType normalizedQuery⟩

/-- `isReadOnlyQuery` (query-validator.ts 214-218). -/
def isReadOnlyQuery (query : List Char) : Bool :=
  let queryType := detectQueryType (removeComments query)
  queryType == .read || queryType == .unknown

/-- `containsWriteOperations` (query-validator.ts 226-229). -/
def containsWriteOperations (query : List Char) : Bool :=
  WRITE_OPERATIONS.any (fun r => rxTestI r (removeComments query))

/-! ### `sanitizeParameters` (query-validator.ts 239-272)

JavaScript's dynamic values are modelled by `JsValue`; `undef` is the
explicit `undefined` value, which the sanitizer below also uses as its
removal marker.  Objects are their `Object.entries` lists (keys unique). -/

inductive JsValue where
  | undef : JsValue
  | null : JsValue
  | bool : Bool → JsValue
  | num : Int → JsValue
  | str : String → JsValue
  | arr : List JsValue → JsValue
  | obj : List (String × JsValue) → JsValue

def JsValue.isUndef : JsValue → Bool
  | .undef => true
  | _ => false

def JsValue.isNum : JsValue → Bool
  | .num _ => true
  | _ => false

/-- Key filter `/^[a-zA-Z_][a-zA-Z0-9_]*$/` (query-validator.ts 250). -/
def isValidParamKey (key : String) : Bool :=
  match key.toList with
  | [] => false
  | c :: rest =>
    ((97 ≤ c.toNat && c.toNat ≤ 122) || (65 ≤ c.toNat && c.toNat ≤ 90) || c == '_') &&
      rest.all isWordChar

/-- The value-type filter of `sanitizeParameters` (query-validator.ts
256-264): `null`, `undefined`, strings, numbers, booleans, arrays and
non-null objects are all accepted, so every `JsValue` passes. -/
def isAllowedParamValue (v : JsValue) : Bool :=
  match v with
  | .null => true
  | .undef => true
  | .str _ => true
  | .num _ => true
  | .bool _ => true
  | .arr _ => true
  | .obj _ => true

/-- `sanitizeParameters` (query-validator.ts 239-272). -/
def sanitizeParameters (params : Option (List (String × JsValue))) :
    Option (List (String × JsValue)) :=
  match params with
  | none => none
  | some entries =>
    let sanitized := entries.filter fun kv => isValidParamKey kv.1 && isAllowedParamValue kv.2
    if sanitized.length > 0 then some sanitized else none

/-! ### `isWriteQuery` and `validateCypherSyntax` (`src/neo4j/queries.ts`) -/

/-- `replace(/\s+/g, ' ')`: collapse each whitespace run to one space.
The boolean argument records whether the previous character was part of a
run already replaced. -/
def collapseWs : Bool → List Char → List Char
  | _, [] => []
  | prevWs, c :: rest =>
    if jsWhitespace c then
      if prevWs then collapseWs true rest else ' ' :: collapseWs true rest
    else c :: collapseWs false rest

/-- The normalisation in `isWriteQuery` (queries.ts 79-84): lowercase,
strip block comments, strip line comments, collapse whitespace, trim. -/
def normalizeForWriteCheck (cypher : List Char) : List Char :=
  jsTrim (collapseWs false (stripLineComments false (stripBlockComments false (lowerAsciiList cypher))))

/-- The `writePatterns` of `isWriteQuery` (queries.ts 87-97); the subject
is already lowercased, so the patterns are matched as written. -/
def writePatterns : List Rx :=
  [rxSeq [.wordB, rxLit "create", .cls jsWhitespace],
   rxSeq [.wordB, rxLit "merge", .cls jsWhitespace],
   rxSeq [.wordB, rxLit "delete", .cls jsWhitespace],
   rxSeq [.wordB, rxLit "detach", rxWsPlus, rxLit "delete", .cls jsWhitespace],
   rxSeq [.wordB, rxLit "set", .cls jsWhitespace],
   rxSeq [.wordB, rxLit "remove", .cls jsWhitespace],
   rxSeq [.wordB, rxLit "drop", .cls jsWhitespace],
   rxSeq [.wordB, rxLit "call", .starCls jsWhitespace, .ch (Char.ofNat 123),
     .starCls (fun c => !(c == Char.ofNat 125)), .wordB,
     rxAlts [rxLit "create", rxLit "merge", rxLit "delete", rxLit "set", rxLit "remove"], .wordB],
   rxSeq [.wordB, rxLit "foreach", .starCls jsWhitespace, .ch '(']]

/-- `isWriteQuery` (queries.ts 78-100). -/
def isWriteQuery (cypher : List Char) : Bool :=
  let normalizedQuery := normalizeForWriteCheck cypher
  writePatterns.any fun r => rxSearchAux r none normalizedQuery

/-- The bracket-balance loop of `validateCypherSyntax` (queries.ts
298-327): three signed counters, failing as soon as one goes negative. -/
def balanceScan : List Char → Int → Int → Int → Option String
  | [], paren, bracket, brace =>
    if paren != 0 then some "Unbalanced parentheses in query"
    else if bracket != 0 then some "Unbalanced square brackets in query"
    else if brace != 0 then some "Unbalanced curly braces in query"
    else none
  | c :: rest, paren, bracket, brace =>
    let paren' := if c == '(' then paren + 1 else if c == ')' then paren - 1 else paren
    let bracket' := if c == '[' then bracket + 1 else if c == ']' then bracket - 1 else bracket
    let brace' :=
      if c == Char.ofNat 123 then brace + 1 else if c == Char.ofNat 125 then brace - 1 else brace
    if paren' < 0 || bracket' < 0 || brace' < 0 then some "Unbalanced brackets in query"
    else balanceScan rest paren' bracket' brace'

/-- `validateCypherSyntax` (queries.ts 290-340): `(valid, error)`. -/
def validateCypherSyntaxCheck (cypher : List Char) : Bool × Option String :=
  let trimmed := jsTrim cypher
  if trimmed.isEmpty then (false, some "Query cannot be empty")
  else
    match balanceScan trimmed 0 0 0 with
    | some e => (false, some e)
    | none => (true, none)

/-! ### Response sanitizer (`src/utils/sanitize.ts`) -/

structure SanOptions where
  maxListSize : Nat
  removeEmbeddings : Bool
  removeNulls : Bool
  maxStringLength : Nat
  maxDepth : Nat

/-- `DEFAULT_OPTIONS` (sanitize.ts 31-37) with `DEFAULTS.MAX_LIST_SIZE = 128`. -/
def DEFAULT_SAN_OPTIONS : SanOptions :=
  ⟨128, true, true, 0, 20⟩

/-- `isEmbeddingArray` (sanitize.ts 50-69).  The numeric test
`typeof value === 'number' && !Number.isNaN(value)` is `JsValue.isNum`
(the modelled number domain has no NaN, which JSON payloads cannot carry).
The float threshold `numericCount >= sampleSize * 0.8` is compared as
`5 * numericCount ≥ 4 * sampleSize`; for every reachable `sampleSize`
(0 to 10) the double product `sampleSize * 0.8` rounds so that the two
comparisons agree on integers. -/
def isEmbeddingArray (a : List JsValue) : Bool :=
  if a.length < 64 then false
  else
    let sampleSize := min 10 a.length
    let numericCount := (a.take sampleSize).countP JsValue.isNum
    5 * numericCount ≥ 4 * sampleSize

/-- `lowerKey.includes(pat)`: contiguous-sublist containment. -/
def listContainsSub (sub : List Char) : List Char → Bool
  | [] => sub.isEmpty
  | c :: rest => sub.isPrefixOf (c :: rest) || listContainsSub sub rest

/-- `isEmbeddingKey` (sanitize.ts 77-92). -/
def isEmbeddingKey (key : String) : Bool :=
  let lowerKey := lowerAsciiList key.toList
  ["embedding", "embeddings", "vector", "vectors", "embed", "encoding", "encodings",
   "feature_vector", "featurevector"].any fun pat => listContainsSub pat.toList lowerKey

/-- `value.substring(0, n) + '...[truncated]'` for over-long strings. -/
def truncStringVal (s : String) (n : Nat) : String :=
  ⟨s.toList.take n⟩ ++ "...[truncated]"

/-- `sanitizeValue` (sanitize.ts 104-180).  The source guards recursion
with `if (depth > options.maxDepth)` and recurses at `depth + 1`; here the
first argument is the remaining depth `options.maxDepth + 1 - depth`, so
`0` is exactly the exceeded case and children run at one less.  This
re-indexing makes the recursion structural. -/
def sanitizeValue (o : SanOptions) : Nat → JsValue → JsValue
  | 0, _ => .str "[Max depth exceeded]"
  | _ + 1, .undef => if o.removeNulls then .undef else .undef
  | _ + 1, .null => if o.removeNulls then .undef else .null
  | _ + 1, .str s =>
    if o.maxStringLength > 0 && s.length > o.maxStringLength then
      .str (truncStringVal s o.maxStringLength)
    else .str s
  | _ + 1, .num n => .num n
  | _ + 1, .bool b => .bool b
  | rem + 1, .arr xs =>
    if o.removeEmbeddings && isEmbeddingArray xs then
      .str ("[Embedding array with " ++ toString xs.length ++ " dimensions - filtered]")
    else if xs.length > o.maxListSize then
      .arr ((((xs.take o.maxListSize).map (sanitizeValue o rem)).filter
          fun v => !v.isUndef) ++
        [.str ("...[" ++ toString (xs.length - o.maxListSize) ++ " more items truncated]")])
    else
      .arr ((xs.map (sanitizeValue o rem)).filter fun v => !v.isUndef)
  | rem + 1, .obj fields =>
    .obj (fields.filterMap fun kv =>
      if o.removeEmbeddings && isEmbeddingKey kv.1 then
        some (kv.1, JsValue.str "[Embedding property - filtered]")
      else
        match sanitizeValue o rem kv.2 with
        | .undef => none
        | w => some (kv.1, w))

/-- `sanitize` with default options (sanitize.ts 195-205); entry depth 0
corresponds to remaining depth `maxDepth + 1`. -/
def sanitize (data : JsValue) : JsValue :=
  sanitizeValue DEFAULT_SAN_OPTIONS (DEFAULT_SAN_OPTIONS.maxDepth + 1) data

def jsArrLen : JsValue → Option Nat
  | .arr xs => some xs.length
  | _ => none

def jsArrLast : JsValue → Option JsValue
  | .arr xs => xs.getLast?
  | _ => none

/-! ### Token estimation and truncation (`src/utils/tokens.ts`) -/

structure TokenOptions where
  charsPerToken : Nat
  maxTokens : Nat
  truncationSuffix : List Char

/-- `DEFAULT_OPTIONS` (tokens.ts 30-34) with `CHARS_PER_TOKEN = 4` and
`TOKEN_LIMIT = 10000`. -/
def defaultTruncationSuffix : List Char :=
  "\n\n...[Response truncated due to token limit]".toList

def DEFAULT_TOKEN_OPTIONS : TokenOptions := ⟨4, 10000, defaultTruncationSuffix⟩

/-- `estimateTokens` (tokens.ts 47-53): `Math.ceil(length / charsPerToken)`
(the `!text → 0` early return coincides with the ceiling at length 0). -/
def estimateTokens (text : List Char) (charsPerToken : Nat) : Nat :=
  (text.length + charsPerToken - 1) / charsPerToken

/-- `String.prototype.lastIndexOf(c, fromIndex)`: the largest index
`i ≤ min (max fromIndex 0) (length - 1)` holding `c`, else `-1`. -/
def jsLastIndexOf (s : List Char) (c : Char) (fromIndex : Int) : Int :=
  match ((List.range s.length).filter fun (i : Nat) =>
      decide ((i : Int) ≤ max fromIndex 0) && s.getD i ' ' == c).getLast? with
  | some i => (i : Int)
  | none => -1

/-- `String.prototype.substring(0, e)` (negative `e` clamps to 0). -/
def jsSubstringTo (s : List Char) (e : Int) : List Char := s.take e.toNat

structure TruncateResult where
  text : List Char
  truncated : Bool
  originalTokens : Nat
  finalTokens : Nat

/-- `truncateToTokens` (tokens.ts 92-142). -/
def truncateToTokens (text : List Char) (opts : TokenOptions) : TruncateResult :=
  let originalTokens := estimateTokens text opts.charsPerToken
  if originalTokens ≤ opts.maxTokens then
    ⟨text, false, originalTokens, originalTokens⟩
  else
    let suffixTokens := estimateTokens opts.truncationSuffix opts.charsPerToken
    let availableTokens : Int := (opts.maxTokens : Int) - (suffixTokens : Int)
    let maxChars : Int := availableTokens * (opts.charsPerToken : Int)
    let lastNewline := jsLastIndexOf text '\n' maxChars
    let truncateAt : Int :=
      if lastNewline > maxChars - 100 && lastNewline > 0 then lastNewline
      else
        let lastSpace := jsLastIndexOf text ' ' maxChars
        if lastSpace > maxChars - 50 && lastSpace > 0 then lastSpace
        else maxChars
    let truncatedText := jsSubstringTo text truncateAt ++ opts.truncationSuffix
    ⟨truncatedText, true, originalTokens, estimateTokens truncatedText opts.charsPerToken⟩

/-! ### Rate limiter (`src/security/index.ts` 500-575)

The key-value store is an explicit association list; `expirationTtl` is
dropped from the model (nothing inside one `checkRateLimit` call reads
it, and the claims quantify over sequences of calls well inside the
stored TTL of two windows).  `Date.now()` floored to seconds is the
explicit `nowSec` argument; one call observes one instant. -/

structure RateLimitConfig where
  maxRequests : Nat
  windowSeconds : Nat

structure RateLimitEntry where
  count : Nat
  window : Nat
deriving DecidableEq

structure RateLimitResult where
  allowed : Bool
  current : Nat
  limit : Nat
  resetIn : Nat
  remaining : Nat

def KvStore := List (String × RateLimitEntry)

def kvGet (kv : KvStore) (key : String) : Option RateLimitEntry :=
  List.lookup key kv

def kvPut (kv : KvStore) (key : String) (v : RateLimitEntry) : KvStore :=
  (key, v) :: List.filter (fun p => !(p.1 == key)) kv

def getRateLimitKey (identifier : String) : String := "rate:" ++ identifier

/-- `getCurrentWindow` (security/index.ts 475-478). -/
def getCurrentWindow (windowSeconds : Nat) (nowSec : Nat) : Nat :=
  nowSec / windowSeconds * windowSeconds

/-- `checkRateLimit` (security/index.ts 500-575), happy path (the modelled
store never throws, so the fail-open catch branch is unreachable). -/
def checkRateLimit (kv : KvStore) (identifier : String) (config : RateLimitConfig)
    (nowSec : Nat) : RateLimitResult × KvStore :=
  let key := getRateLimitKey identifier
  let currentWindow := getCurrentWindow config.windowSeconds nowSec
  let count :=
    match kvGet kv key with
    | some existing => if existing.window == currentWindow then existing.count + 1 else 1
    | none => 1
  let allowed : Bool := count ≤ config.maxRequests
  let kv' := if allowed then kvPut kv key ⟨count, currentWindow⟩ else kv
  let windowEnd := currentWindow + config.windowSeconds
  let resetIn := windowEnd - nowSec
  (⟨allowed, count, config.maxRequests, resetIn, config.maxRequests - count⟩, kv')

/-! ### Crypto utilities (`src/auth/crypto.ts`)

The repository's own code around the Web Crypto API is the base64
plumbing (`arrayBufferToBase64` = bytes-to-binary-string + `btoa`,
`base64ToArrayBuffer` = `atob` + char codes) and the key derivation; those
are implemented concretely below over byte lists (`Nat` values `< 256`).
The platform primitives `crypto.subtle.digest('SHA-256')` and AES-GCM
`encrypt`/`decrypt` are abstracted by a `WebCrypto` structure carrying the
authenticated-encryption contract the source relies on.  Plaintext strings
enter `crypto.subtle.encrypt` as their `TextEncoder` UTF-8 bytes, so
plaintexts are modelled as byte lists. -/

def B64_ALPHABET : List Char :=
  "ABCDEFGHIJKLMNOPQRSTUVWXYZabcdefghijklmnopqrstuvwxyz0123456789+/".toList

def b64char (n : Nat) : Char := B64_ALPHABET.getD n '?'

def b64index (c : Char) : Option Nat := B64_ALPHABET.findIdx? (fun d => d == c)

/-- `arrayBufferToBase64` (crypto.ts 77-84): standard base64 with `=`
padding, grouping three bytes into four alphabet characters. -/
def b64encode : List Nat → List Char
  | [] => []
  | [b1] => [b64char (b1 / 4), b64char (b1 % 4 * 16), '=', '=']
  | [b1, b2] => [b64char (b1 / 4), b64char (b1 % 4 * 16 + b2 / 16), b64char (b2 % 16 * 4), '=']
  | b1 :: b2 :: b3 :: rest =>
    b64char (b1 / 4) :: b64char (b1 % 4 * 16 + b2 / 16) ::
      b64char (b2 % 16 * 4 + b3 / 64) :: b64char (b3 % 64) :: b64encode rest

/-- `base64ToArrayBuffer` (crypto.ts 92-99): `atob` plus char codes;
`none` models `atob` throwing on input that is not base64.  A final
four-character group may carry one or two `=` padding characters. -/
def b64decode : List Char → Option (List Nat)
  | [] => some []
  | c1 :: c2 :: c3 :: c4 :: rest =>
    if c3 = '=' ∧ c4 = '=' ∧ rest = [] then do
      let s1 ← b64index c1
      let s2 ← b64index c2
      some [s1 * 4 + s2 / 16]
    else if c4 = '=' ∧ rest = [] then do
      let s1 ← b64index c1
      let s2 ← b64index c2
      let s3 ← b64index c3
      some [s1 * 4 + s2 / 16, s2 % 16 * 16 + s3 / 4]
    else do
      let s1 ← b64index c1
      let s2 ← b64index c2
      let s3 ← b64index c3
      let s4 ← b64index c4
      let tail ← b64decode rest
      some ((s1 * 4 + s2 / 16) :: (s2 % 16 * 16 + s3 / 4) :: (s3 % 4 * 64 + s4) :: tail)
  | _ => none

/-- `EncryptedData` (crypto.ts 13-18): both fields base64 strings. -/
structure EncryptedData where
  ciphertext : List Char
  iv : List Char

/-- The Web Crypto primitives used by crypto.ts, abstracted with the
AES-GCM contract the source depends on: ciphertexts are byte lists, and
decryption with the same key and IV authenticates and returns the exact
plaintext. -/
structure WebCrypto where
  sha256 : List Nat → List Nat
  aesGcmEncrypt : List Nat → List Nat → List Nat → List Nat
  aesGcmDecrypt : List Nat → List Nat → List Nat → Option (List Nat)
  aesGcmEncrypt_bytes : ∀ key iv p, (∀ b ∈ p, b < 256) →
    ∀ b ∈ aesGcmEncrypt key iv p, b < 256
  aesGcmDecrypt_encrypt : ∀ key iv p, (∀ b ∈ p, b < 256) →
    aesGcmDecrypt key iv (aesGcmEncrypt key iv p) = some p

/-- `deriveKey` (crypto.ts 39-60): decode the base64 key; if it is not
exactly 32 bytes, hash it with SHA-256.  `none` models the `atob` throw on
a key that is not valid base64. -/
def deriveKey (w : WebCrypto) (base64Key : List Char) : Option (List Nat) :=
  (b64decode base64Key).map fun keyData =>
    if keyData.length == 32 then keyData else w.sha256 keyData

/-- `encrypt` (crypto.ts 108-131).  The random IV drawn by `generateIV`
is the explicit `iv` argument; `plaintextBytes` is the `TextEncoder`
encoding of the plaintext string. -/
def encrypt (w : WebCrypto) (plaintextBytes : List Nat) (encryptionKey : List Char)
    (iv : List Nat) : Option EncryptedData :=
  (deriveKey w encryptionKey).map fun key =>
    ⟨b64encode (w.aesGcmEncrypt key iv plaintextBytes), b64encode iv⟩

/-- `decrypt` (crypto.ts 141-166): `none` models the thrown
`Decryption failed` error (or an `atob` failure on malformed fields). -/
def decrypt (w : WebCrypto) (encryptedData : EncryptedData) (encryptionKey : List Char) :
    Option (List Nat) := do
  let key ← deriveKey w encryptionKey
  let iv ← b64decode encryptedData.iv
  let ciphertext ← b64decode encryptedData.ciphertext
  w.aesGcmDecrypt key iv ciphertext

/-! ### JSON-RPC protocol and request pipeline
(`src/mcp/protocol.ts`, `src/mcp/handlers.ts`, `src/index.ts`) -/

/-- A JSON-RPC id after validation: string, number, or null (an absent id
is normalised to null by `parseJsonRpcRequest`). -/
inductive RpcId where
  | str : String → RpcId
  | num : Int → RpcId
  | null : RpcId
deriving DecidableEq

structure JsonRpcRequest where
  id : RpcId
  method : String
  params : JsValue

structure McpErr where
  name : String
  code : Int
  message : String

/-- Object property access: first binding for the key, `undef` when the
key is absent (JS object keys are unique). -/
def jsGet (fields : List (String × JsValue)) (key : String) : JsValue :=
  match fields.find? (fun kv => kv.1 == key) with
  | none => .undef
  | some kv => kv.2

/-- `parseJsonRpcRequest` (protocol.ts 20-56). -/
def parseJsonRpcRequest (body : JsValue) : Except McpErr JsonRpcRequest :=
  match body with
  | .obj fields =>
    match jsGet fields "jsonrpc" with
    | .str v =>
      if !(v == "2.0") then
        .error ⟨"InvalidRequestError", -32600, "Invalid JSON-RPC version. Must be \"2.0\""⟩
      else
      match jsGet fields "method" with
      | .str m =>
        if m.isEmpty then
          .error ⟨"InvalidRequestError", -32600, "Method must be a non-empty string"⟩
        else
          let idVal := jsGet fields "id"
          match idVal with
          | .undef => checkParams fields ⟨.null, m, jsGet fields "params"⟩
          | .null => checkParams fields ⟨.null, m, jsGet fields "params"⟩
          | .str s => checkParams fields ⟨.str s, m, jsGet fields "params"⟩
          | .num n => checkParams fields ⟨.num n, m, jsGet fields "params"⟩
          | _ => .error ⟨"InvalidRequestError", -32600, "Request id must be a string, number, or null"⟩
      | _ => .error ⟨"InvalidRequestError", -32600, "Method must be a non-empty string"⟩
    | _ => .error ⟨"InvalidRequestError", -32600, "Invalid JSON-RPC version. Must be \"2.0\""⟩
  | _ => .error ⟨"ParseError", -32700, "Request body must be a JSON object"⟩
where
  /-- `params` must be absent or `typeof === 'object'` (which in JS admits
  objects, arrays and `null`). -/
  checkParams (fields : List (String × JsValue)) (req : JsonRpcRequest) :
      Except McpErr JsonRpcRequest :=
    match jsGet fields "params" with
    | .undef => .ok req
    | .obj _ => .ok req
    | .arr _ => .ok req
    | .null => .ok req
    | _ => .error ⟨"InvalidParamsError", -32602, "Params must be an object or array"⟩

/-- `isNotification` (protocol.ts 61-63). -/
def isNotification (request : JsonRpcRequest) : Bool :=
  request.id == RpcId.null

/-- The payloads a route can answer with; tool-call payloads are the
`McpToolResult` outcomes produced by the tool layer, everything else is
identified by which handler built it (`initialize` result, `tools/list`
result, the `{}` of `ping` and of the empty acknowledgment). -/
inductive RouteResult where
  | initResult : RouteResult
  | toolsListResult : (includeWriteTool : Bool) → RouteResult
  | emptyResult : RouteResult
  | toolResult : (isError : Bool) → RouteResult
deriving DecidableEq

inductive HandlerRes where
  | resp : RouteResult → HandlerRes
  | notif : HandlerRes
  | errorR : McpErr → HandlerRes

/-- `routeRequest` (handlers.ts 704-735).  `toolExec` abstracts
`handleToolsCall`, whose result depends on the configured connection and
the remote database; a thrown error surfaces as `errorR` via the
surrounding try/catch. -/
def routeRequest (toolExec : JsonRpcRequest → HandlerRes) (readOnly : Bool)
    (request : JsonRpcRequest) : HandlerRes :=
  match request.method with
  | "initialize" => .resp .initResult
  | "notifications/initialized" => .notif
  | "tools/list" => .resp (.toolsListResult !readOnly)
  | "tools/call" => toolExec request
  | "ping" => .resp .emptyResult
  | m => .errorR ⟨"MethodNotFoundError", -32601, "Method not found: " ++ m⟩

/-- The observable HTTP outcome of `handleMcpRequest` (index.ts 108-231):
a 429 rate-limit response, a 204 with no body, a success envelope
`{jsonrpc, id, result}`, or an error envelope (the catch block always
builds it with id `null`). -/
inductive HttpOutcome where
  | rateLimited : HttpOutcome
  | noBody : HttpOutcome
  | envelope : RpcId → RouteResult → HttpOutcome
  | errorEnvelope : RpcId → Int → HttpOutcome
deriving DecidableEq

/-- `handleMcpRequest` (index.ts 108-231) for a decoded JSON body.
`rateAllowed` is the outcome of the `checkRateLimit` call and `readOnly`
the authenticated connection's flag; authentication itself only populates
the context consumed by `toolExec`. -/
def handleMcpRequest (toolExec : JsonRpcRequest → HandlerRes) (rateAllowed : Bool)
    (readOnly : Bool) (body : JsValue) : HttpOutcome :=
  match parseJsonRpcRequest body with
  | .error e => .errorEnvelope .null e.code
  | .ok rpcRequest =>
    if !rateAllowed then .rateLimited
    else
      match routeRequest toolExec readOnly rpcRequest with
      | .notif =>
        if isNotification rpcRequest then .noBody
        else .envelope rpcRequest.id .emptyResult
      | .resp r => .envelope rpcRequest.id r
      | .errorR e => .errorEnvelope .null e.code

/-- Does the outcome carry no application-level response body beyond at
most an empty acknowledgment (the claim's reading of "no response")? -/
def isNoBodyOrEmptyAck : HttpOutcome → Bool
  | .noBody => true
  | .envelope _ .emptyResult => true
  | _ => false

/-! ### The read tool (`executeReadCypher`, handlers.ts 468-581)

The function is embedded up to its first call into the Neo4j client: the
constructors of `ReadToolStep` are the three ways it can hand control
back before remote I/O (throwing, returning the not-connected error
result, or issuing the client query); the response shaping after a client
call depends only on the remote answer and is outside the claims. -/

inductive ReadToolStep where
  | threw : String → Int → String → ReadToolStep
  | noConnection : ReadToolStep
  | callsClient : List Char → Option (List (String × JsValue)) → ReadToolStep

/-- `getOptionalObjectParam` (protocol.ts 173-184). -/
def getOptionalObjectParam (params : Option (List (String × JsValue))) (name : String) :
    Except McpErr (Option (List (String × JsValue))) :=
  match params with
  | none => .ok none
  | some p =>
    match jsGet p name with
    | .undef => .ok none
    | .obj o => .ok (some o)
    | _ => .error ⟨"InvalidParamsError", -32602, "Parameter " ++ name ++ " must be an object"⟩

/-- `executeReadCypher` (handlers.ts 468-581) up to the client boundary. -/
def executeReadCypher (args : Option (List (String × JsValue))) (hasClient : Bool) :
    ReadToolStep :=
  match args with
  | none => .threw "InvalidParamsError" (-32602) "Missing required parameter: query"
  | some a =>
    match jsGet a "query" with
    | .str query =>
      match getOptionalObjectParam (some a) "params" with
      | .error e => .threw e.name e.code e.message
      | .ok rawParams =>
        let securityCheck := validateQuery query.toList
        if !securityCheck.valid then
          .threw "ValidationError" (-32005)
            (securityCheck.error.getD "Query blocked for security reasons")
        else
          let params := sanitizeParameters rawParams
          let syntaxCheck := validateCypherSyntaxCheck query.toList
          if !syntaxCheck.1 then
            .threw "ValidationError" (-32005) (syntaxCheck.2.getD "Invalid query syntax")
          else if isWriteQuery query.toList then
            .threw "ValidationError" (-32005)
              "This query contains write operations. Use write_neo4j_cypher for CREATE, MERGE, DELETE, SET, or REMOVE operations."
          else if !hasClient then .noConnection
          else .callsClient query.toList params
    | _ => .threw "InvalidParamsError" (-32602) "Missing required parameter: query"

/-- Did the read tool reject by throwing `ValidationError` (-32005)? -/
def isValidationThrow : ReadToolStep → Bool
  | .threw name code _ => name == "ValidationError" && code == -32005
  | _ => false

/-- Did the read tool issue a query to the remote client? -/
def callsRemoteClient : ReadToolStep → Bool
  | .callsClient _ _ => true
  | _ => false

/-! ## Theorems -/

/-! ### Shared lemmas -/

theorem isAllowedParamValue_true (v : JsValue) : isAllowedParamValue v = true := by
  cases v <;> rfl

theorem kvGet_kvPut_self (kv : KvStore) (key : String) (v : RateLimitEntry) :
    kvGet (kvPut kv key v) key = some v := by
  simp [kvGet, kvPut, List.lookup]

/-- The incremented-or-reset counter computed inside `checkRateLimit`. -/
def rlCount (kv : KvStore) (identifier : String) (config : RateLimitConfig) (nowSec : Nat) : Nat :=
  match kvGet kv (getRateLimitKey identifier) with
  | some existing =>
    if existing.window == getCurrentWindow config.windowSeconds nowSec then existing.count + 1
    else 1
  | none => 1

/-- Unfolded form of `checkRateLimit`, for stepwise computation. -/
theorem checkRateLimit_eq (kv : KvStore) (identifier : String) (config : RateLimitConfig)
    (nowSec : Nat) :
    checkRateLimit kv identifier config nowSec =
      (⟨decide (rlCount kv identifier config nowSec ≤ config.maxRequests),
        rlCount kv identifier config nowSec, config.maxRequests,
        getCurrentWindow config.windowSeconds nowSec + config.windowSeconds - nowSec,
        config.maxRequests - rlCount kv identifier config nowSec⟩,
       if decide (rlCount kv identifier config nowSec ≤ config.maxRequests) then
         kvPut kv (getRateLimitKey identifier)
           ⟨rlCount kv identifier config nowSec, getCurrentWindow config.windowSeconds nowSec⟩
       else kv) := rfl

/-! ### Claim C10 -/

/-- Claim C10: for a parameter map in which no key matches
`[A-Za-z_][A-Za-z0-9_]*`, `sanitizeParameters` returns `undefined` rather
than an empty map; and whenever it does return a map, that map consists of
exactly the entries whose key matches the pattern (the value-type filter
accepts every JSON value, so only the key filter selects). -/
theorem sanitizeParameters_drops_all_or_keeps_matching :
    (∀ entries : List (String × JsValue),
        (∀ kv ∈ entries, isValidParamKey kv.1 = false) →
        sanitizeParameters (some entries) = none) ∧
    (∀ (entries out : List (String × JsValue)),
        sanitizeParameters (some entries) = some out →
        out = entries.filter fun kv => isValidParamKey kv.1) := by
  constructor
  · intro entries h
    have hfil : entries.filter (fun kv => isValidParamKey kv.1 && isAllowedParamValue kv.2) = [] := by
      rw [List.filter_eq_nil_iff]
      intro kv hkv
      simp [h kv hkv]
    simp [sanitizeParameters, hfil]
  · intro entries out h
    have hfil : entries.filter (fun kv => isValidParamKey kv.1 && isAllowedParamValue kv.2) =
        entries.filter (fun kv => isValidParamKey kv.1) := by
      apply List.filter_congr
      intro kv _
      rw [isAllowedParamValue_true, Bool.and_true]
    rw [sanitizeParameters, hfil] at h
    by_cases hl : (entries.filter fun kv => isValidParamKey kv.1).length > 0
    · simpa [hl] using h.symm
    · simp [hl] at h

/-- Witness for C10 at concrete inputs: a map whose single key starts with
a digit is dropped entirely (result `undefined`), and a conforming map is
returned as its matching-key filter. -/
theorem sanitizeParameters_drops_all_or_keeps_matching_witness :
    sanitizeParameters (some [("1bad", JsValue.num 2)]) = none ∧
    ([("ok", JsValue.num 1)] : List (String × JsValue)) =
      List.filter (fun kv => isValidParamKey kv.1) [("ok", JsValue.num 1)] :=
  ⟨sanitizeParameters_drops_all_or_keeps_matching.1 [("1bad", JsValue.num 2)] (by decide),
   sanitizeParameters_drops_all_or_keeps_matching.2 [("ok", JsValue.num 1)] [("ok", JsValue.num 1)] rfl⟩

/-! ### Claim C5 -/

/-- Claim C5: when `checkRateLimit` computes a not-allowed result, it
performs no write — the returned store is the input store unchanged; and
whenever a write does happen (the allowed case), the persisted record
carries the returned `current` count, which is at most `maxRequests`.
Hence blocked requests never grow the persisted counter and the persisted
count never exceeds `maxRequests`. -/
theorem checkRateLimit_blocked_no_write (kv : KvStore) (identifier : String)
    (config : RateLimitConfig) (nowSec : Nat) :
    ((checkRateLimit kv identifier config nowSec).1.allowed = false →
      (checkRateLimit kv identifier config nowSec).2 = kv) ∧
    ((checkRateLimit kv identifier config nowSec).1.allowed = true →
      kvGet (checkRateLimit kv identifier config nowSec).2 (getRateLimitKey identifier) =
        some ⟨(checkRateLimit kv identifier config nowSec).1.current,
          getCurrentWindow config.windowSeconds nowSec⟩ ∧
      (checkRateLimit kv identifier config nowSec).1.current ≤ config.maxRequests) := by
  unfold checkRateLimit
  dsimp only
  constructor
  · intro h
    rw [h]
    rfl
  · intro h
    rw [h]
    refine ⟨kvGet_kvPut_self _ _ _, of_decide_eq_true h⟩

/-- Witness for C5: on a store already holding a full window (count 2 of
`maxRequests = 2`), a further call in the same window is blocked and the
store is returned unchanged; and an allowed fresh call persists count 1. -/
theorem checkRateLimit_blocked_no_write_witness :
    (checkRateLimit [("rate:u", ⟨2, 0⟩)] "u" ⟨2, 60⟩ 30).2 = [("rate:u", ⟨2, 0⟩)] ∧
    (checkRateLimit [] "v" ⟨2, 60⟩ 30).1.current ≤ 2 :=
  ⟨(checkRateLimit_blocked_no_write [("rate:u", ⟨2, 0⟩)] "u" ⟨2, 60⟩ 30).1 (by decide),
   ((checkRateLimit_blocked_no_write [] "v" ⟨2, 60⟩ 30).2 (by decide)).2⟩

/-! ### Claim C4 -/

/-- Claim C4: starting from a store with no record for the identity
(`[]`), with `maxRequests = 3`, four calls whose times fall in one fixed
window are allowed, allowed, allowed, then blocked with `current = 4` and
`remaining = 0`; a fifth call whose time falls in a different window is
allowed again with `current = 1`. -/
theorem checkRateLimit_three_then_blocked_then_reset
    (identifier : String) (W t1 t2 t3 t4 t5 : Nat)
    (h2 : getCurrentWindow W t2 = getCurrentWindow W t1)
    (h3 : getCurrentWindow W t3 = getCurrentWindow W t1)
    (h4 : getCurrentWindow W t4 = getCurrentWindow W t1)
    (h5 : getCurrentWindow W t5 ≠ getCurrentWindow W t4) :
    let c1 := checkRateLimit [] identifier ⟨3, W⟩ t1
    let c2 := checkRateLimit c1.2 identifier ⟨3, W⟩ t2
    let c3 := checkRateLimit c2.2 identifier ⟨3, W⟩ t3
    let c4 := checkRateLimit c3.2 identifier ⟨3, W⟩ t4
    let c5 := checkRateLimit c4.2 identifier ⟨3, W⟩ t5
    c1.1.allowed = true ∧ c2.1.allowed = true ∧ c3.1.allowed = true ∧
      c4.1.allowed = false ∧ c4.1.current = 4 ∧ c4.1.remaining = 0 ∧
      c5.1.allowed = true ∧ c5.1.current = 1 := by
  intro c1 c2 c3 c4 c5
  have r1 : rlCount [] identifier ⟨3, W⟩ t1 = 1 := rfl
  have s1 : c1.2 = kvPut [] (getRateLimitKey identifier) ⟨1, getCurrentWindow W t1⟩ := by
    show (checkRateLimit [] identifier ⟨3, W⟩ t1).2 = _
    rw [checkRateLimit_eq, r1]
    rfl
  have a1 : c1.1.allowed = true := by
    show (checkRateLimit [] identifier ⟨3, W⟩ t1).1.allowed = true
    rw [checkRateLimit_eq, r1]
    rfl
  have r2 : rlCount c1.2 identifier ⟨3, W⟩ t2 = 2 := by
    unfold rlCount
    rw [s1, kvGet_kvPut_self]
    dsimp only
    rw [h2]
    simp
  have s2 : c2.2 = kvPut c1.2 (getRateLimitKey identifier) ⟨2, getCurrentWindow W t2⟩ := by
    show (checkRateLimit c1.2 identifier ⟨3, W⟩ t2).2 = _
    rw [checkRateLimit_eq, r2]
    rfl
  have a2 : c2.1.allowed = true := by
    show (checkRateLimit c1.2 identifier ⟨3, W⟩ t2).1.allowed = true
    rw [checkRateLimit_eq, r2]
    rfl
  have r3 : rlCount c2.2 identifier ⟨3, W⟩ t3 = 3 := by
    unfold rlCount
    rw [s2, kvGet_kvPut_self]
    dsimp only
    rw [h2, h3]
    simp
  have s3 : c3.2 = kvPut c2.2 (getRateLimitKey identifier) ⟨3, getCurrentWindow W t3⟩ := by
    show (checkRateLimit c2.2 identifier ⟨3, W⟩ t3).2 = _
    rw [checkRateLimit_eq, r3]
    rfl
  have a3 : c3.1.allowed = true := by
    show (checkRateLimit c2.2 identifier ⟨3, W⟩ t3).1.allowed = true
    rw [checkRateLimit_eq, r3]
    rfl
  have r4 : rlCount c3.2 identifier ⟨3, W⟩ t4 = 4 := by
    unfold rlCount
    rw [s3, kvGet_kvPut_self]
    dsimp only
    rw [h3, h4]
    simp
  have a4 : c4.1.allowed = false := by
    show (checkRateLimit c3.2 identifier ⟨3, W⟩ t4).1.allowed = false
    rw [checkRateLimit_eq, r4]
    rfl
  have cur4 : c4.1.current = 4 := by
    show (checkRateLimit c3.2 identifier ⟨3, W⟩ t4).1.current = 4
    rw [checkRateLimit_eq, r4]
  have rem4 : c4.1.remaining = 0 := by
    show (checkRateLimit c3.2 identifier ⟨3, W⟩ t4).1.remaining = 0
    rw [checkRateLimit_eq, r4]
    rfl
  have s4 : c4.2 = c3.2 := by
    show (checkRateLimit c3.2 identifier ⟨3, W⟩ t4).2 = c3.2
    rw [checkRateLimit_eq, r4]
    rfl
  have r5 : rlCount c4.2 identifier ⟨3, W⟩ t5 = 1 := by
    unfold rlCount
    rw [s4, s3, kvGet_kvPut_self]
    dsimp only
    rw [h3]
    rw [h4] at h5
    rw [if_neg]
    simp only [beq_iff_eq]
    exact fun hEq => h5 hEq.symm
  have a5 : c5.1.allowed = true := by
    show (checkRateLimit c4.2 identifier ⟨3, W⟩ t5).1.allowed = true
    rw [checkRateLimit_eq, r5]
    rfl
  have cur5 : c5.1.current = 1 := by
    show (checkRateLimit c4.2 identifier ⟨3, W⟩ t5).1.current = 1
    rw [checkRateLimit_eq, r5]
  exact ⟨a1, a2, a3, a4, cur4, rem4, a5, cur5⟩

/-- Witness for C4 at concrete times 0,1,2,3 in the 60-second window
starting at 0, and a fifth call at time 60. -/
theorem checkRateLimit_three_then_blocked_then_reset_witness :
    let c1 := checkRateLimit [] "caller" ⟨3, 60⟩ 0
    let c2 := checkRateLimit c1.2 "caller" ⟨3, 60⟩ 1
    let c3 := checkRateLimit c2.2 "caller" ⟨3, 60⟩ 2
    let c4 := checkRateLimit c3.2 "caller" ⟨3, 60⟩ 3
    let c5 := checkRateLimit c4.2 "caller" ⟨3, 60⟩ 60
    c1.1.allowed = true ∧ c2.1.allowed = true ∧ c3.1.allowed = true ∧
      c4.1.allowed = false ∧ c4.1.current = 4 ∧ c4.1.remaining = 0 ∧
      c5.1.allowed = true ∧ c5.1.current = 1 :=
  checkRateLimit_three_then_blocked_then_reset "caller" 60 0 1 2 3 60
    (by decide) (by decide) (by decide) (by decide)

/-! ### Claim C2 -/

/-- Does `getOptionalObjectParam(args, 'params')` succeed (i.e. the
optional `params` argument is absent or an object)? -/
def paramsArgumentOk (a : List (String × JsValue)) : Bool :=
  match getOptionalObjectParam (some a) "params" with
  | .ok _ => true
  | .error _ => false

/-- Counterexample to claim C2 as stated: a read-tool invocation whose
query is exactly the write query `"CREATE (n) RETURN n"` but whose
`params` argument is the number `42` is rejected by
`getOptionalObjectParam` with `InvalidParamsError` (-32602) — not with a
`ValidationError` (-32005) — because the params extraction runs before any
query validation. -/
theorem readTool_write_query_rejection_counterexample :
    executeReadCypher
        (some [("query", JsValue.str "CREATE (n) RETURN n"), ("params", JsValue.num 42)]) true =
      ReadToolStep.threw "InvalidParamsError" (-32602) "Parameter params must be an object" ∧
    isValidationThrow (executeReadCypher
        (some [("query", JsValue.str "CREATE (n) RETURN n"), ("params", JsValue.num 42)]) true) =
      false :=
  ⟨rfl, rfl⟩

/-- Claim C2 (amended): for every read-tool invocation whose `query`
argument is a string containing a write construct (`isWriteQuery`), and
whose optional `params` argument — if present — is an object, the call
throws a `ValidationError` (code -32005), and no query is ever issued to
the remote graph database client.  (Unrestricted over `params`, the claim
fails: see the counterexample, where the rejection is an
`InvalidParamsError` -32602 — though still before any client call.) -/
theorem readTool_write_query_validation_rejection
    (a : List (String × JsValue)) (hasClient : Bool) (q : String)
    (hq : jsGet a "query" = JsValue.str q)
    (hp : paramsArgumentOk a = true)
    (hw : isWriteQuery q.toList = true) :
    isValidationThrow (executeReadCypher (some a) hasClient) = true ∧
    callsRemoteClient (executeReadCypher (some a) hasClient) = false := by
  unfold executeReadCypher
  dsimp only
  rw [hq]
  unfold paramsArgumentOk at hp
  cases hpp : getOptionalObjectParam (some a) "params" with
  | error e => rw [hpp] at hp; exact absurd hp (by simp)
  | ok rawParams =>
    simp only [hpp]
    have hw2 : isWriteQuery q.data = true := hw
    by_cases h1 : (validateQuery q.data).valid
    · by_cases hsyn : (validateCypherSyntaxCheck q.data).1
      · simp [h1, hsyn, hw2, isValidationThrow, callsRemoteClient]
      · simp [h1, hsyn, isValidationThrow, callsRemoteClient]
    · simp [h1, isValidationThrow, callsRemoteClient]

/-- Witness for C2 (amended) at the spec's own example: the read tool
invoked with query `"CREATE (n) RETURN n"` and no `params`. -/
theorem readTool_write_query_validation_rejection_witness :
    isValidationThrow
        (executeReadCypher (some [("query", JsValue.str "CREATE (n) RETURN n")]) true) = true ∧
    callsRemoteClient
        (executeReadCypher (some [("query", JsValue.str "CREATE (n) RETURN n")]) true) = false :=
  readTool_write_query_validation_rejection [("query", JsValue.str "CREATE (n) RETURN n")] true
    "CREATE (n) RETURN n" rfl (by decide) (by decide)

/-! ### Claim C6 -/

/-- Counterexample to claim C6 as stated: the request
`{"jsonrpc": "2.0", "method": "initialize"}` has no `id` (a notification
by the claim's definition), yet `handleMcpRequest` answers it with a full
success envelope carrying the `initialize` result — not an empty
acknowledgment and not an empty body.  (`fun _ => HandlerRes.notif` is an
arbitrary instantiation of the tool-call handler, which this request never
reaches.) -/
theorem notification_no_response_counterexample :
    handleMcpRequest (fun _ => HandlerRes.notif) true false
        (JsValue.obj [("jsonrpc", JsValue.str "2.0"), ("method", JsValue.str "initialize")]) =
      HttpOutcome.envelope RpcId.null RouteResult.initResult ∧
    isNoBodyOrEmptyAck
        (handleMcpRequest (fun _ => HandlerRes.notif) true false
          (JsValue.obj [("jsonrpc", JsValue.str "2.0"), ("method", JsValue.str "initialize")])) =
      false :=
  ⟨rfl, rfl⟩

/-- Claim C6 (amended): only the `notifications/initialized` method is
routed as a notification; for every request body that parses to that
method with a null (or absent) id, and that passes the rate limiter, the
server produces no application-level response body (HTTP 204, empty).
Requests with a null id for any other method still receive an envelope. -/
theorem notification_initialized_no_response
    (toolExec : JsonRpcRequest → HandlerRes) (readOnly : Bool) (body : JsValue)
    (req : JsonRpcRequest)
    (hparse : parseJsonRpcRequest body = .ok req)
    (hm : req.method = "notifications/initialized")
    (hid : req.id = RpcId.null) :
    handleMcpRequest toolExec true readOnly body = HttpOutcome.noBody := by
  unfold handleMcpRequest
  rw [hparse]
  simp only [Bool.not_true, Bool.false_eq_true, if_false]
  unfold routeRequest
  rw [hm]
  simp [isNotification, hid]

/-- Witness for C6 (amended): the concrete notification body
`{"jsonrpc": "2.0", "method": "notifications/initialized"}` receives no
response body. -/
theorem notification_initialized_no_response_witness :
    handleMcpRequest (fun _ => HandlerRes.notif) true false
        (JsValue.obj [("jsonrpc", JsValue.str "2.0"),
          ("method", JsValue.str "notifications/initialized")]) =
      HttpOutcome.noBody :=
  notification_initialized_no_response (fun _ => HandlerRes.notif) false
    (JsValue.obj [("jsonrpc", JsValue.str "2.0"),
      ("method", JsValue.str "notifications/initialized")])
    ⟨RpcId.null, "notifications/initialized", JsValue.undef⟩ rfl rfl rfl

/-! ### Claim C1 -/

/-- Claim C1: any query whose effective text (after comment stripping, so
comments surrounding the construct cannot hide it) contains one of the
constructs `DROP DATABASE`, `CREATE USER`, `GRANT`, `REVOKE`, or a remote
`LOAD CSV`, in any casing, is rejected: `validateQuery` returns
`valid = false`.  (The matchers are case-insensitive, so the hypothesis
covers every casing; over-long and blank queries are rejected upstream by
the same function, so no extra hypotheses are needed.) -/
theorem validateQuery_blocks_dangerous_constructs
    (query : List Char)
    (h : rxTestI rxDropDatabase (removeComments query) = true ∨
      rxTestI rxCreateUser (removeComments query) = true ∨
      rxTestI rxGrant (removeComments query) = true ∨
      rxTestI rxRevoke (removeComments query) = true ∨
      rxTestI rxLoadCsvRemote (removeComments query) = true) :
    (validateQuery query).valid = false := by
  by_cases hlen : query.length > MAX_QUERY_LENGTH
  · simp [validateQuery, hlen]
  · by_cases htrim : (jsTrim query).isEmpty
    · simp [validateQuery, hlen, htrim]
    · cases hfind : DANGEROUS_OPERATIONS.find? (fun po => rxTestI po.1 (removeComments query)) with
      | some po => simp [validateQuery, hlen, htrim, hfind]
      | none =>
        exfalso
        have hall := List.find?_eq_none.mp hfind
        have hnot : ∀ r : Rx, ∀ m : String, (r, m) ∈ DANGEROUS_OPERATIONS →
            ¬rxTestI r (removeComments query) = true := by
          intro r m hm
          exact hall (r, m) hm
        rcases h with h | h | h | h | h
        · exact hnot rxDropDatabase "DROP DATABASE is not allowed"
            (by simp [DANGEROUS_OPERATIONS]) h
        · exact hnot rxCreateUser "CREATE USER is not allowed"
            (by simp [DANGEROUS_OPERATIONS]) h
        · exact hnot rxGrant "GRANT is not allowed"
            (by simp [DANGEROUS_OPERATIONS]) h
        · exact hnot rxRevoke "REVOKE is not allowed"
            (by simp [DANGEROUS_OPERATIONS]) h
        · exact hnot rxLoadCsvRemote "LOAD CSV from remote URLs is not allowed"
            (by simp [DANGEROUS_OPERATIONS]) h

/-- Witness for C1: a mixed-case `DROP DATABASE` wrapped in comments is
rejected. -/
theorem validateQuery_blocks_dangerous_constructs_witness :
    (validateQuery ("/* hi */ dRoP   DataBase users // tail".toList)).valid = false :=
  validateQuery_blocks_dangerous_constructs ("/* hi */ dRoP   DataBase users // tail".toList)
    (Or.inl (by decide))

/-! ### Claims C9 and C8 -/

/-- Unfolding of `sanitizeValue` on an array at positive remaining depth. -/
theorem sanitizeValue_succ_arr (o : SanOptions) (rem : Nat) (xs : List JsValue) :
    sanitizeValue o (rem + 1) (.arr xs) =
      (if o.removeEmbeddings && isEmbeddingArray xs then
        .str ("[Embedding array with " ++ toString xs.length ++ " dimensions - filtered]")
      else if xs.length > o.maxListSize then
        .arr ((((xs.take o.maxListSize).map (sanitizeValue o rem)).filter fun v => !v.isUndef) ++
          [.str ("...[" ++ toString (xs.length - o.maxListSize) ++ " more items truncated]")])
      else .arr ((xs.map (sanitizeValue o rem)).filter fun v => !v.isUndef)) := rfl

/-- Claim C9: under default options, an all-number array of length at
least 64 is replaced by the embedding placeholder naming its
dimensionality, while an all-number array of length below 64 passes
through `sanitize` unchanged. -/
theorem sanitize_embedding_arrays :
    (∀ xs : List JsValue, (∀ v ∈ xs, v.isNum = true) → 64 ≤ xs.length →
      sanitize (JsValue.arr xs) =
        JsValue.str ("[Embedding array with " ++ toString xs.length ++ " dimensions - filtered]")) ∧
    (∀ xs : List JsValue, (∀ v ∈ xs, v.isNum = true) → xs.length < 64 →
      sanitize (JsValue.arr xs) = JsValue.arr xs) := by
  constructor
  · intro xs hnum hlen
    have hEmb : isEmbeddingArray xs = true := by
      simp only [isEmbeddingArray]
      rw [if_neg (by omega)]
      rw [decide_eq_true_eq]
      have h1 : (xs.take (min 10 xs.length)).countP JsValue.isNum =
          (xs.take (min 10 xs.length)).length :=
        List.countP_eq_length.mpr fun a ha => hnum a (List.mem_of_mem_take ha)
      rw [h1, List.length_take]
      omega
    show sanitizeValue DEFAULT_SAN_OPTIONS (20 + 1) (JsValue.arr xs) = _
    rw [sanitizeValue_succ_arr]
    simp [DEFAULT_SAN_OPTIONS, hEmb]
  · intro xs hnum hlen
    have hEmb : isEmbeddingArray xs = false := by
      simp only [isEmbeddingArray]
      rw [if_pos (by omega)]
    have hmap : xs.map (sanitizeValue DEFAULT_SAN_OPTIONS 20) = xs := by
      have : xs.map (sanitizeValue DEFAULT_SAN_OPTIONS 20) = xs.map id := by
        apply List.map_congr_left
        intro v hv
        have hn := hnum v hv
        cases v
        case num => rfl
        all_goals simp [JsValue.isNum] at hn
      rw [this, List.map_id]
    have hfil : xs.filter (fun v => !v.isUndef) = xs := by
      apply List.filter_eq_self.mpr
      intro v hv
      have hn := hnum v hv
      cases v
      case num => rfl
      all_goals simp [JsValue.isNum] at hn
    show sanitizeValue DEFAULT_SAN_OPTIONS (20 + 1) (JsValue.arr xs) = _
    rw [sanitizeValue_succ_arr]
    rw [if_neg (by simp [DEFAULT_SAN_OPTIONS, hEmb])]
    rw [if_neg (by simp [DEFAULT_SAN_OPTIONS]; omega)]
    rw [hmap, hfil]

/-- Witness for C9: 64 zeros are replaced by the placeholder; 63 zeros
pass through unchanged. -/
theorem sanitize_embedding_arrays_witness :
    sanitize (JsValue.arr (List.replicate 64 (JsValue.num 0))) =
      JsValue.str ("[Embedding array with "
        ++ toString (List.replicate 64 (JsValue.num 0)).length ++ " dimensions - filtered]") ∧
    sanitize (JsValue.arr (List.replicate 63 (JsValue.num 0))) =
      JsValue.arr (List.replicate 63 (JsValue.num 0)) :=
  ⟨sanitize_embedding_arrays.1 (List.replicate 64 (JsValue.num 0))
    (fun v hv => by rw [List.eq_of_mem_replicate hv]; rfl) (by simp),
   sanitize_embedding_arrays.2 (List.replicate 63 (JsValue.num 0))
    (fun v hv => by rw [List.eq_of_mem_replicate hv]; rfl) (by simp)⟩

/-- Counterexample to claim C8 as stated: the all-number array of length
129 (which exceeds 128) is not sanitized to a 129-element array at all —
the embedding filter replaces it by a placeholder string first. -/
theorem sanitize_long_array_counterexample :
    sanitize (JsValue.arr (List.replicate 129 (JsValue.num 0))) =
      JsValue.str "[Embedding array with 129 dimensions - filtered]" ∧
    jsArrLen (sanitize (JsValue.arr (List.replicate 129 (JsValue.num 0)))) = none :=
  ⟨rfl, rfl⟩

/-- Claim C8 (amended): for arrays of length greater than 128 that are
not classified as embedding arrays and whose first 128 elements all
sanitize to defined (non-removed) values, `sanitize` with default options
yields an array of length exactly 129 whose last element is the
placeholder string naming the truncated count `len(A) - 128`.  (Both
side-conditions are forced: all-number long arrays become embedding
placeholders — see the counterexample — and elements sanitized away, such
as nulls, shrink the result below 129.) -/
theorem sanitize_long_array_truncation (xs : List JsValue)
    (hlen : 128 < xs.length)
    (hemb : isEmbeddingArray xs = false)
    (hdef : ∀ v ∈ xs.take 128, (sanitizeValue DEFAULT_SAN_OPTIONS 20 v).isUndef = false) :
    jsArrLen (sanitize (JsValue.arr xs)) = some 129 ∧
    jsArrLast (sanitize (JsValue.arr xs)) =
      some (JsValue.str ("...[" ++ toString (xs.length - 128) ++ " more items truncated]")) := by
  have hrw : sanitize (JsValue.arr xs) =
      JsValue.arr ((((xs.take 128).map (sanitizeValue DEFAULT_SAN_OPTIONS 20)).filter
          fun v => !v.isUndef) ++
        [.str ("...[" ++ toString (xs.length - 128) ++ " more items truncated]")]) := by
    show sanitizeValue DEFAULT_SAN_OPTIONS (20 + 1) (JsValue.arr xs) = _
    rw [sanitizeValue_succ_arr]
    rw [if_neg (by simp [DEFAULT_SAN_OPTIONS, hemb])]
    rw [if_pos (by simp [DEFAULT_SAN_OPTIONS]; omega)]
    rfl
  have hfil : ((xs.take 128).map (sanitizeValue DEFAULT_SAN_OPTIONS 20)).filter
      (fun v => !v.isUndef) = (xs.take 128).map (sanitizeValue DEFAULT_SAN_OPTIONS 20) := by
    apply List.filter_eq_self.mpr
    intro v hv
    obtain ⟨w, hw, rfl⟩ := List.mem_map.mp hv
    rw [hdef w hw]
    rfl
  rw [hrw, hfil]
  constructor
  · show some _ = some 129
    congr 1
    rw [List.length_append, List.length_map, List.length_take]
    simp
    omega
  · show ((xs.take 128).map (sanitizeValue DEFAULT_SAN_OPTIONS 20) ++
        [JsValue.str ("...[" ++ toString (xs.length - 128) ++ " more items truncated]")]).getLast? = _
    rw [List.getLast?_concat]

/-- Witness for C8 (amended): 129 one-character strings sanitize to 128
kept elements plus the truncation marker naming 1 dropped item. -/
theorem sanitize_long_array_truncation_witness :
    jsArrLen (sanitize (JsValue.arr (List.replicate 129 (JsValue.str "a")))) = some 129 ∧
    jsArrLast (sanitize (JsValue.arr (List.replicate 129 (JsValue.str "a")))) =
      some (JsValue.str ("...[" ++ toString ((List.replicate 129 (JsValue.str "a")).length - 128)
        ++ " more items truncated]")) :=
  sanitize_long_array_truncation (List.replicate 129 (JsValue.str "a"))
    (by simp) (by decide)
    (by
      intro v hv
      rw [List.eq_of_mem_replicate (List.mem_of_mem_take hv)]
      rfl)

/-! ### Claim C3 -/

/-- The alphabet lookup inverts the alphabet indexing (checked over all
64 sextets). -/
theorem b64index_b64char_fin : ∀ n : Fin 64, b64index (b64char n.val) = some n.val := by decide

theorem b64index_b64char (n : Nat) (h : n < 64) : b64index (b64char n) = some n :=
  b64index_b64char_fin ⟨n, h⟩

/-- Alphabet characters are never the padding character. -/
theorem b64char_ne_pad_fin : ∀ n : Fin 64, ¬b64char n.val = '=' := by decide

theorem b64char_ne_pad (n : Nat) (h : n < 64) : ¬b64char n = '=' :=
  b64char_ne_pad_fin ⟨n, h⟩

/-- Base64 round trip: decoding an encoding of a byte list returns it. -/
theorem b64decode_b64encode : ∀ l : List Nat, (∀ b ∈ l, b < 256) →
    b64decode (b64encode l) = some l
  | [], _ => rfl
  | [b1], h => by
    have hb1 : b1 < 256 := h b1 (by simp)
    simp only [b64encode, b64decode]
    rw [b64index_b64char _ (by omega), b64index_b64char _ (by omega)]
    simp
    omega
  | [b1, b2], h => by
    have hb1 : b1 < 256 := h b1 (by simp)
    have hb2 : b2 < 256 := h b2 (by simp)
    simp only [b64encode, b64decode]
    rw [if_neg (by simp [b64char_ne_pad (b2 % 16 * 4) (by omega)])]
    rw [if_pos (by simp)]
    rw [b64index_b64char _ (by omega), b64index_b64char _ (by omega),
      b64index_b64char _ (by omega)]
    simp
    constructor
    · omega
    · omega
  | b1 :: b2 :: b3 :: rest, h => by
    have hb1 : b1 < 256 := h b1 (by simp)
    have hb2 : b2 < 256 := h b2 (by simp)
    have hb3 : b3 < 256 := h b3 (by simp)
    have ih := b64decode_b64encode rest fun b hb => h b (by simp [hb])
    simp only [b64encode, b64decode]
    rw [if_neg (by simp [b64char_ne_pad (b2 % 16 * 4 + b3 / 64) (by omega)])]
    rw [if_neg (by simp [b64char_ne_pad (b3 % 64) (by omega)])]
    rw [b64index_b64char _ (by omega), b64index_b64char _ (by omega),
      b64index_b64char _ (by omega), b64index_b64char _ (by omega)]
    simp [ih]
    refine ⟨by omega, by omega, by omega⟩

/-- Claim C3: decrypting the result of encrypting plaintext `P` under key
string `K` (with the per-call random IV `iv`) using the same `K` returns
exactly `P`.  The hypotheses say the plaintext and IV are byte lists
(true of `TextEncoder` output and `getRandomValues`) and that `encrypt`
produced a result at all (it throws when `K` is not base64, in which case
there is nothing to decrypt). -/
theorem decrypt_encrypt_roundtrip (w : WebCrypto) (P : List Nat) (K : List Char)
    (iv : List Nat) (hP : ∀ b ∈ P, b < 256) (hiv : ∀ b ∈ iv, b < 256)
    (e : EncryptedData) (he : encrypt w P K iv = some e) :
    decrypt w e K = some P := by
  unfold encrypt at he
  cases hk : deriveKey w K with
  | none => rw [hk] at he; simp at he
  | some key =>
    rw [hk] at he
    simp at he
    subst he
    unfold decrypt
    rw [hk]
    dsimp only
    rw [b64decode_b64encode iv hiv,
      b64decode_b64encode _ (w.aesGcmEncrypt_bytes key iv P hP)]
    exact w.aesGcmDecrypt_encrypt key iv P hP

/-- An instantiation of the Web Crypto contract (the identity cipher with
an empty hash), used to witness the round-trip theorem on concrete data. -/
def trivialWebCrypto : WebCrypto :=
  ⟨fun _ => [], fun _ _ p => p, fun _ _ c => some c,
   fun _ _ _ hp => hp, fun _ _ _ _ => rfl⟩

/-- Witness for C3: encrypt-then-decrypt of the bytes of `"hi"` under the
base64 key `"AAAA"` with IV `[7]` returns the plaintext. -/
theorem decrypt_encrypt_roundtrip_witness :
    Option.bind (encrypt trivialWebCrypto [104, 105] ("AAAA".toList) [7])
      (fun e => decrypt trivialWebCrypto e ("AAAA".toList)) = some [104, 105] :=
  decrypt_encrypt_roundtrip trivialWebCrypto [104, 105] ("AAAA".toList) [7]
    (by decide) (by decide) _ rfl

/-! ### Claim C7 -/

/-- `lastIndexOf` never reports beyond the (clamped) search start. -/
theorem jsLastIndexOf_le (s : List Char) (c : Char) (fromIndex : Int) :
    jsLastIndexOf s c fromIndex ≤ max fromIndex 0 := by
  unfold jsLastIndexOf
  split
  · next i h =>
    have hm := List.mem_of_mem_getLast? h
    have hf := (List.mem_filter.mp hm).2
    simp only [Bool.and_eq_true, decide_eq_true_eq] at hf
    exact_mod_cast hf.1
  · omega

/-- Text within the token budget is returned unchanged. -/
theorem truncate_text_id_of_fits (text : List Char) (B : Nat)
    (h : estimateTokens text 4 ≤ B) :
    (truncateToTokens text ⟨4, B, defaultTruncationSuffix⟩).text = text := by
  unfold truncateToTokens
  dsimp only
  rw [if_pos h]

/-- For budgets that cover the truncation suffix (11 tokens), the output
of `truncateToTokens` never exceeds `4 * B` characters: the cut point is
bounded by the reserved character budget in every break-point branch. -/
theorem truncate_text_len_le (text : List Char) (B : Nat) (hB : 11 ≤ B) :
    (truncateToTokens text ⟨4, B, defaultTruncationSuffix⟩).text.length ≤ 4 * B := by
  unfold truncateToTokens
  dsimp only
  by_cases h : estimateTokens text 4 ≤ B
  · rw [if_pos h]
    dsimp only
    unfold estimateTokens at h
    omega
  · rw [if_neg h]
    dsimp only
    rw [show estimateTokens defaultTruncationSuffix 4 = 11 from rfl]
    unfold jsSubstringTo
    rw [List.length_append, List.length_take]
    have hsuf : defaultTruncationSuffix.length = 44 := rfl
    rw [hsuf]
    push_cast
    have hln := jsLastIndexOf_le text '\n' (((B : Int) - 11) * 4)
    have hls := jsLastIndexOf_le text ' ' (((B : Int) - 11) * 4)
    split
    · next hc =>
      simp only [Bool.and_eq_true, decide_eq_true_eq] at hc
      omega
    · split
      · next hc =>
        simp only [Bool.and_eq_true, decide_eq_true_eq] at hc
        omega
      · omega

/-- For budgets below the suffix cost, the truncated output is exactly the
suffix: the computed character budget is negative, so the kept prefix is
empty and neither break-point branch can fire. -/
theorem truncate_text_small_budget (text : List Char) (B : Nat) (hB : B < 11)
    (h : ¬estimateTokens text 4 ≤ B) :
    (truncateToTokens text ⟨4, B, defaultTruncationSuffix⟩).text = defaultTruncationSuffix := by
  unfold truncateToTokens
  dsimp only
  rw [if_neg h]
  dsimp only
  rw [show estimateTokens defaultTruncationSuffix 4 = 11 from rfl]
  push_cast
  have hln := jsLastIndexOf_le text '\n' (((B : Int) - 11) * 4)
  have hls := jsLastIndexOf_le text ' ' (((B : Int) - 11) * 4)
  rw [if_neg (by
    simp only [Bool.and_eq_true, decide_eq_true_eq]
    intro hc
    omega)]
  rw [if_neg (by
    simp only [Bool.and_eq_true, decide_eq_true_eq]
    intro hc
    omega)]
  unfold jsSubstringTo
  rw [show ((((B : Int) - 11) * 4).toNat) = 0 from by omega]
  rw [List.take_zero, List.nil_append]

/-- Claim C7: truncation is idempotent — re-applying `truncateToTokens`
with the same budget `B` (and default ratio and suffix) to the text output
of a first application returns that text unchanged, for every input string
and every budget.  For `B ≥ 11` the first output fits the budget, so the
second pass is the identity; for smaller budgets the first output is
exactly the suffix, which is a fixed point of the truncating branch. -/
theorem truncateToTokens_idempotent (text : List Char) (B : Nat) :
    (truncateToTokens (truncateToTokens text ⟨4, B, defaultTruncationSuffix⟩).text
        ⟨4, B, defaultTruncationSuffix⟩).text =
      (truncateToTokens text ⟨4, B, defaultTruncationSuffix⟩).text := by
  by_cases hB : 11 ≤ B
  · apply truncate_text_id_of_fits
    have hlen := truncate_text_len_le text B hB
    unfold estimateTokens
    omega
  · push_neg at hB
    by_cases h : estimateTokens text 4 ≤ B
    · rw [truncate_text_id_of_fits text B h]
      exact truncate_text_id_of_fits text B h
    · rw [truncate_text_small_budget text B hB h]
      apply truncate_text_small_budget _ B hB
      rw [show estimateTokens defaultTruncationSuffix 4 = 11 from rfl]
      omega
